import Mathlib

/-!
Verification development for the deloxide runtime deadlock detector.

The repository ships the C API header (`src/include/deloxide.h`) and the C
test programs (`src/c_tests/`); the detector core itself (resource registry,
wait-for graph, primitive engines) is not part of the sources available here,
so the detector is modelled from the specification: threads and locks form a
labeled directed graph with `hold` edges (lock → thread) and `wait` edges
(thread → lock, at most one per thread), and every `on_about_to_wait` event
inserts a wait edge and runs a depth-first search over contributing edges.
The C convenience macros of the header are embedded directly from the source.
-/

namespace Deloxide

abbrev Tid := Nat
abbrev Lid := Nat

/-- Modelled from the spec: the acquisition mode of a wait edge
(`mode ∈ {exclusive, shared}`; the condvar suspension is bracketed
separately and contributes no wait edge). -/
inductive Mode where
  | exclusive
  | shared
deriving DecidableEq, Repr

/-- Modelled from the spec: the deadlock report payload delivered to the
callback — the ordered thread cycle and the `(tid, lid)` wait edges used. -/
structure Report where
  thread_cycle : List Tid
  thread_waiting_for_locks : List (Tid × Lid)
deriving DecidableEq, Repr

/-- Modelled from the spec: the detector's global state — the wait-for graph
(hold edges per primitive kind, wait edges), the condvar waiter registrations,
the `deadlock_seen` flag and the list of reports delivered to the callback.
The Rust detector core is not under `src/`; this state is assembled from the
spec's data model (§3) and component design (§4). -/
structure DState where
  mutexOwner : List (Lid × Tid)
  rwReaders : List (Lid × Tid)
  rwWriter : List (Lid × Tid)
  waits : List (Tid × Lid × Mode)
  cvWaiters : List (Tid × Lid × Lid)
  deadlock_seen : Bool
  reports : List Report
deriving DecidableEq, Repr

def DState.init : DState := ⟨[], [], [], [], [], false, []⟩

/-- The wait edge of thread `t`, if any (a thread has at most one). -/
def lookupWait (s : DState) (t : Tid) : Option (Lid × Mode) :=
  (s.waits.find? (fun e => e.1 = t)).map (fun e => e.2)

/-- Threads holding mutex `l` (at most one). -/
def mutexHolders (s : DState) (l : Lid) : List Tid :=
  (s.mutexOwner.filter (fun e => e.1 = l)).map (fun e => e.2)

/-- Threads holding a read lock on RwLock `l`. -/
def readersOf (s : DState) (l : Lid) : List Tid :=
  (s.rwReaders.filter (fun e => e.1 = l)).map (fun e => e.2)

/-- Threads holding the write lock on RwLock `l` (at most one). -/
def writersOf (s : DState) (l : Lid) : List Tid :=
  (s.rwWriter.filter (fun e => e.1 = l)).map (fun e => e.2)

/-- The current holder of mutex `l`, if any. -/
def mutexOwnerOf (s : DState) (l : Lid) : Option Tid :=
  (s.mutexOwner.find? (fun e => e.1 = l)).map (fun e => e.2)

/-- Modelled from the spec (§4.3): the holders of lock `l` whose hold edge is
*contributing* for a wait by thread `t` in mode `m`. For a mutex any holder
conflicts; for an RwLock a writer-waiter conflicts with any writer holder and
with any *other* reader holder, while a reader-waiter conflicts only with a
writer holder. A thread's own reader hold is not contributing against its own
write request, so an upgrade manifests as a deadlock only once two
read-holding threads both request write (§4.5). -/
def conflictingHolders (s : DState) (t : Tid) (l : Lid) (m : Mode) : List Tid :=
  mutexHolders s l ++ writersOf s l ++
    (match m with
     | Mode.exclusive => (readersOf s l).filter (fun r => r ≠ t)
     | Mode.shared => [])

/-- Insert the wait edge `t → l` (replacing any previous wait edge of `t`). -/
def insertWait (s : DState) (t : Tid) (l : Lid) (m : Mode) : DState :=
  { s with waits := (t, l, m) :: s.waits.filter (fun e => e.1 ≠ t) }

/-- Remove the wait edge of thread `t`. -/
def removeWait (s : DState) (t : Tid) : DState :=
  { s with waits := s.waits.filter (fun e => e.1 ≠ t) }

/-- Modelled from the spec (§4.3): depth-first search from the inserting
thread over contributing edges only, with fuel for termination. `accT`/`accE`
accumulate the threads visited and the wait edges followed; a cycle closes
when a contributing holder is the `start` thread, and the report lists the
thread IDs in traversal order together with the wait edges used. -/
def dfsAux (s : DState) (start : Tid) :
    Nat → Tid → List Tid → List (Tid × Lid) → Option Report
  | 0, _, _, _ => none
  | fuel + 1, t, accT, accE =>
    match lookupWait s t with
    | none => none
    | some (l, m) =>
      if start ∈ conflictingHolders s t l m then
        some ⟨accT ++ [t], accE ++ [(t, l)]⟩
      else
        (conflictingHolders s t l m).findSome? fun h =>
          if h ∈ accT ++ [t] then none
          else dfsAux s start fuel h (accT ++ [t]) (accE ++ [(t, l)])

/-- Fuel bound for the DFS: one step per live wait edge suffices. -/
def fuelOf (s : DState) : Nat := s.waits.length + 1

/-- Modelled from the spec: run cycle detection from thread `start`. -/
def findCycle (s : DState) (start : Tid) : Option Report :=
  dfsAux s start (fuelOf s) start [] []

/-- Modelled from the spec (§4.3, §4.7): `on_about_to_wait` inserts the wait
edge, runs cycle detection, and on a cycle sets `deadlock_seen` and fires the
callback (recorded by appending the report); the wait edge is not removed. -/
def on_about_to_wait (s : DState) (t : Tid) (l : Lid) (m : Mode) : DState :=
  match findCycle (insertWait s t l m) t with
  | none => insertWait s t l m
  | some r =>
    { insertWait s t l m with
      deadlock_seen := true
      reports := (insertWait s t l m).reports ++ [r] }

/-- Modelled from the spec (§4.3): on acquisition the wait edge is removed and
the mutex hold edge added. -/
def on_acquired_mutex (s : DState) (t : Tid) (l : Lid) : DState :=
  let s' := removeWait s t
  { s' with mutexOwner := (l, t) :: s'.mutexOwner }

/-- Modelled from the spec (§4.3): acquisition of a read lock. -/
def on_acquired_read (s : DState) (t : Tid) (l : Lid) : DState :=
  let s' := removeWait s t
  { s' with rwReaders := (l, t) :: s'.rwReaders }

/-- Modelled from the spec (§4.3): acquisition of the write lock. -/
def on_acquired_write (s : DState) (t : Tid) (l : Lid) : DState :=
  let s' := removeWait s t
  { s' with rwWriter := (l, t) :: s'.rwWriter }

/-- Modelled from the spec (§4.3): release of a mutex hold edge. -/
def on_released_mutex (s : DState) (t : Tid) (l : Lid) : DState :=
  { s with mutexOwner := s.mutexOwner.erase (l, t) }

/-- Modelled from the spec (§4.3): release of one specific reader's edge. -/
def on_released_read (s : DState) (t : Tid) (l : Lid) : DState :=
  { s with rwReaders := s.rwReaders.erase (l, t) }

/-- Modelled from the spec (§4.3): release of the writer's edge. -/
def on_released_write (s : DState) (t : Tid) (l : Lid) : DState :=
  { s with rwWriter := s.rwWriter.erase (l, t) }

/-- Modelled from the spec (§4.4, §7): `unlock` must be called by the current
holder — a contract violation returns a negative code and mutates nothing;
otherwise the primitive is released and `on_released` runs, returning 0. -/
def unlock_mutex (s : DState) (t : Tid) (l : Lid) : Int × DState :=
  if mutexOwnerOf s l = some t then (0, on_released_mutex s t l)
  else (-2, s)

/-- Modelled from the spec: the FFI entry `deloxide_unlock_mutex`
(src/include/deloxide.h:381); a null handle returns −1 with no mutation, any
other call goes through the mutex engine. -/
def deloxide_unlock_mutex (s : DState) (t : Tid) (mutex : Option Lid) :
    Int × DState :=
  match mutex with
  | none => (-1, s)
  | some l => unlock_mutex s t l

/-- Modelled from the spec (§4.6): entry to a condvar wait atomically releases
the associated mutex in the graph and registers `(tid, cv, mutex)` in the
condvar's waiter set; during the suspension the thread contributes no edge. -/
def condvar_wait_begin (s : DState) (t : Tid) (cv : Lid) (mx : Lid) : DState :=
  let s' := on_released_mutex s t mx
  { s' with cvWaiters := (t, cv, mx) :: s'.cvWaiters }

/-- Modelled from the spec (§4.6): a notified (or timed-out) waiter leaves the
condvar's waiter set; the mutex reacquisition then goes through the mutex
engine's `on_about_to_wait` path. -/
def condvar_wake (s : DState) (t : Tid) (cv : Lid) : DState :=
  { s with cvWaiters := s.cvWaiters.filter (fun w => w.1 != t || w.2.1 != cv) }

/-- Modelled from the spec (§6): `deloxide_condvar_wait` — 0 on success, −1
null condvar, −2 null mutex, −3 mutex not held by the caller, −4 wait
failure (`waitOk = false` stands for an OS wait failure). -/
def deloxide_condvar_wait (s : DState) (t : Tid) (condvar : Option Lid)
    (mutex : Option Lid) (waitOk : Bool) : Int × DState :=
  match condvar with
  | none => (-1, s)
  | some cv =>
    match mutex with
    | none => (-2, s)
    | some mx =>
      if mutexOwnerOf s mx = some t then
        if waitOk then (0, condvar_wait_begin s t cv mx) else (-4, s)
      else (-3, s)

/-- Modelled from the spec (§6): `deloxide_condvar_wait_timeout` — same
negative codes as `deloxide_condvar_wait`, 0 when signaled, 1 on timeout. -/
def deloxide_condvar_wait_timeout (s : DState) (t : Tid) (condvar : Option Lid)
    (mutex : Option Lid) (waitOk : Bool) (timedOut : Bool) : Int × DState :=
  match condvar with
  | none => (-1, s)
  | some cv =>
    match mutex with
    | none => (-2, s)
    | some mx =>
      if mutexOwnerOf s mx = some t then
        if waitOk then
          (if timedOut then 1 else 0, condvar_wait_begin s t cv mx)
        else (-4, s)
      else (-3, s)

/-- Modelled from the spec (§6): poll accessor for the deadlock flag. -/
def deloxide_is_deadlock_detected (s : DState) : Int :=
  if s.deadlock_seen then 1 else 0

/-- Modelled from the spec (§6, §8.7): reset the deadlock flag so future
cycles are reported again. -/
def deloxide_reset_deadlock_flag (s : DState) : DState :=
  { s with deadlock_seen := false }

/-- Modelled from the spec: the graph events generated by the tracked
primitives. `req*` is `on_about_to_wait` in the corresponding mode, `acq*`
is `on_acquired`, `rel*` is the release path, `cvWait`/`cvWake` bracket the
suspended period of a condvar wait. -/
inductive Event where
  | reqMutex (t : Tid) (l : Lid)
  | acqMutex (t : Tid) (l : Lid)
  | relMutex (t : Tid) (l : Lid)
  | reqRead (t : Tid) (l : Lid)
  | acqRead (t : Tid) (l : Lid)
  | relRead (t : Tid) (l : Lid)
  | reqWrite (t : Tid) (l : Lid)
  | acqWrite (t : Tid) (l : Lid)
  | relWrite (t : Tid) (l : Lid)
  | cvWait (t : Tid) (cv : Lid) (mx : Lid)
  | cvWake (t : Tid) (cv : Lid)
  | resetFlag
deriving DecidableEq, Repr

/-- Modelled from the spec: one graph event. -/
def step (s : DState) : Event → DState
  | .reqMutex t l => on_about_to_wait s t l Mode.exclusive
  | .acqMutex t l => on_acquired_mutex s t l
  | .relMutex t l => (unlock_mutex s t l).2
  | .reqRead t l => on_about_to_wait s t l Mode.shared
  | .acqRead t l => on_acquired_read s t l
  | .relRead t l => on_released_read s t l
  | .reqWrite t l => on_about_to_wait s t l Mode.exclusive
  | .acqWrite t l => on_acquired_write s t l
  | .relWrite t l => on_released_write s t l
  | .cvWait t cv mx => condvar_wait_begin s t cv mx
  | .cvWake t cv => condvar_wake s t cv
  | .resetFlag => deloxide_reset_deadlock_flag s

/-- Run a sequence of graph events from the initial (empty) state. -/
def run (evs : List Event) : DState := evs.foldl step DState.init

/-- The two-thread cross scenario with T1 = 1, T2 = 2, A = 10, B = 11:
T1 locks A, T2 locks B, T1 requests B (blocks), T2 requests A. -/
def crossTrace : List Event :=
  [.reqMutex 1 10, .acqMutex 1 10,
   .reqMutex 2 11, .acqMutex 2 11,
   .reqMutex 1 11,
   .reqMutex 2 10]

/-- C1: in the two-thread cross scenario (T1 = 1 locks A = 10 then requests
B = 11 while T2 = 2 holds B and requests A), the detector fires the callback
exactly once, with `thread_cycle` equal to `[T1, T2]` or `[T2, T1]` and with
`thread_waiting_for_locks` containing both `(T1, B)` and `(T2, A)`. -/
theorem two_thread_cross_deadlock :
    (run crossTrace).deadlock_seen = true ∧
    (run crossTrace).reports.length = 1 ∧
    ∀ r ∈ (run crossTrace).reports,
      (r.thread_cycle = [1, 2] ∨ r.thread_cycle = [2, 1]) ∧
      (1, 11) ∈ r.thread_waiting_for_locks ∧
      (2, 10) ∈ r.thread_waiting_for_locks := by
  decide

/-- The condvar cycle scenario with T1 = 1, T2 = 2, A = 10, B = 11, cv = 30:
T1 locks A and waits on cv (releasing A); T2 locks B, locks A, notifies cv and
unlocks A; T1 reacquires A through the `on_about_to_wait` path; T2 requests A
(held by T1); T1 requests B (held by T2). -/
def condvarTrace : List Event :=
  [.reqMutex 1 10, .acqMutex 1 10,
   .cvWait 1 30 10,
   .reqMutex 2 11, .acqMutex 2 11,
   .reqMutex 2 10, .acqMutex 2 10,
   .cvWake 1 30,
   .relMutex 2 10,
   .reqMutex 1 10, .acqMutex 1 10,
   .reqMutex 2 10,
   .reqMutex 1 11]

/-- C4: in the condvar cycle scenario, during the suspended period of the
wait thread T1 = 1 contributes no edge toward the condvar's associated mutex
A = 10 (no wait edge and no hold edge; only the waiter registration exists),
and after T1's reacquisition of A and the crossed requests the callback fires
with `thread_cycle = [T1, T2]`. -/
theorem condvar_cycle_deadlock :
    (lookupWait (run (condvarTrace.take 5)) 1 = none ∧
     1 ∉ mutexHolders (run (condvarTrace.take 5)) 10 ∧
     (1, 30, 10) ∈ (run (condvarTrace.take 5)).cvWaiters) ∧
    (run condvarTrace).deadlock_seen = true ∧
    (run condvarTrace).reports.length = 1 ∧
    ∀ r ∈ (run condvarTrace).reports, r.thread_cycle = [1, 2] := by
  decide

/-- The RwLock upgrade scenario with T1 = 1, T2 = 2, R = 40: both threads
take the read lock, then T2 requests write, then T1 requests write. -/
def upgradeTrace : List Event :=
  [.reqRead 1 40, .acqRead 1 40,
   .reqRead 2 40, .acqRead 2 40,
   .reqWrite 2 40,
   .reqWrite 1 40]

/-- C5: when two threads each hold a read lock on the same RwLock R = 40 and
then each requests the write lock on it, the detector fires the callback with
`thread_cycle = [T1, T2]` and both wait edges pointing at the same lock ID. -/
theorem rwlock_upgrade_deadlock :
    (run upgradeTrace).deadlock_seen = true ∧
    (run upgradeTrace).reports.length = 1 ∧
    ∀ r ∈ (run upgradeTrace).reports,
      r.thread_cycle = [1, 2] ∧
      r.thread_waiting_for_locks = [(1, 40), (2, 40)] := by
  decide

/-- A two-thread cross deadlock (threads 1, 2 on locks 10, 11), a flag reset,
then a second, independent two-thread cross deadlock (threads 3, 4 on locks
20, 21). -/
def resetTrace : List Event :=
  [.reqMutex 1 10, .acqMutex 1 10,
   .reqMutex 2 11, .acqMutex 2 11,
   .reqMutex 1 11,
   .reqMutex 2 10,
   .resetFlag,
   .reqMutex 3 20, .acqMutex 3 20,
   .reqMutex 4 21, .acqMutex 4 21,
   .reqMutex 3 21,
   .reqMutex 4 20]

/-- C9: after a deadlock has fired, `deloxide_is_deadlock_detected` returns 1;
`deloxide_reset_deadlock_flag` returns it to 0; and a subsequent independent
cycle fires the callback again (a second report) and sets the flag again. -/
theorem reset_flag_round_trip :
    deloxide_is_deadlock_detected (run (resetTrace.take 6)) = 1 ∧
    (run (resetTrace.take 6)).reports.length = 1 ∧
    deloxide_is_deadlock_detected (run (resetTrace.take 7)) = 0 ∧
    (run (resetTrace.take 7)).reports.length = 1 ∧
    deloxide_is_deadlock_detected (run resetTrace) = 1 ∧
    (run resetTrace).reports.length = 2 := by
  decide

/-- The observable behavior of one C convenience macro invocation: the
process exits with a code, the macro's statement completes normally, or (for
the timeout wait) the macro evaluates to the raw result value. -/
inductive CallOutcome where
  | exited (code : Int)
  | completed
  | value (r : Int)
deriving DecidableEq, Repr

/-- `LOCK_MUTEX` (src/include/deloxide.h:175): exits with 1 whenever
`deloxide_lock_mutex` returns nonzero `r`. -/
def LOCK_MUTEX (r : Int) : CallOutcome :=
  if r != 0 then .exited 1 else .completed

/-- `UNLOCK_MUTEX` (src/include/deloxide.h:197). -/
def UNLOCK_MUTEX (r : Int) : CallOutcome :=
  if r != 0 then .exited 1 else .completed

/-- `RWLOCK_READ` (src/include/deloxide.h:212). -/
def RWLOCK_READ (r : Int) : CallOutcome :=
  if r != 0 then .exited 1 else .completed

/-- `RWUNLOCK_READ` (src/include/deloxide.h:227). -/
def RWUNLOCK_READ (r : Int) : CallOutcome :=
  if r != 0 then .exited 1 else .completed

/-- `RWLOCK_WRITE` (src/include/deloxide.h:242). -/
def RWLOCK_WRITE (r : Int) : CallOutcome :=
  if r != 0 then .exited 1 else .completed

/-- `RWUNLOCK_WRITE` (src/include/deloxide.h:257). -/
def RWUNLOCK_WRITE (r : Int) : CallOutcome :=
  if r != 0 then .exited 1 else .completed

/-- `CONDVAR_WAIT` (src/include/deloxide.h:696). -/
def CONDVAR_WAIT (r : Int) : CallOutcome :=
  if r != 0 then .exited 1 else .completed

/-- `CONDVAR_NOTIFY_ONE` (src/include/deloxide.h:727). -/
def CONDVAR_NOTIFY_ONE (r : Int) : CallOutcome :=
  if r != 0 then .exited 1 else .completed

/-- `CONDVAR_NOTIFY_ALL` (src/include/deloxide.h:742). -/
def CONDVAR_NOTIFY_ALL (r : Int) : CallOutcome :=
  if r != 0 then .exited 1 else .completed

/-- `CONDVAR_WAIT_TIMEOUT` (src/include/deloxide.h:716): evaluates to the raw
result of `deloxide_condvar_wait_timeout`, never exiting. -/
def CONDVAR_WAIT_TIMEOUT (r : Int) : CallOutcome :=
  .value r

/-- C10: every C convenience macro of the binding layer terminates the
process with `exit(1)` whenever the underlying FFI call returns a nonzero
value, completes normally on zero (so no error code propagates to macro
callers), and `CONDVAR_WAIT_TIMEOUT` is the sole exception, evaluating to the
raw result without exiting. -/
theorem macros_exit_on_error :
    ∀ r : Int,
      (r ≠ 0 →
        LOCK_MUTEX r = .exited 1 ∧ UNLOCK_MUTEX r = .exited 1 ∧
        RWLOCK_READ r = .exited 1 ∧ RWUNLOCK_READ r = .exited 1 ∧
        RWLOCK_WRITE r = .exited 1 ∧ RWUNLOCK_WRITE r = .exited 1 ∧
        CONDVAR_WAIT r = .exited 1 ∧ CONDVAR_NOTIFY_ONE r = .exited 1 ∧
        CONDVAR_NOTIFY_ALL r = .exited 1) ∧
      (r = 0 →
        LOCK_MUTEX r = .completed ∧ UNLOCK_MUTEX r = .completed ∧
        RWLOCK_READ r = .completed ∧ RWUNLOCK_READ r = .completed ∧
        RWLOCK_WRITE r = .completed ∧ RWUNLOCK_WRITE r = .completed ∧
        CONDVAR_WAIT r = .completed ∧ CONDVAR_NOTIFY_ONE r = .completed ∧
        CONDVAR_NOTIFY_ALL r = .completed) ∧
      CONDVAR_WAIT_TIMEOUT r = .value r := by
  intro r
  refine ⟨fun h => ?_, fun h => ?_, rfl⟩
  · have hb : (r != 0) = true := by simpa using h
    simp [LOCK_MUTEX, UNLOCK_MUTEX, RWLOCK_READ, RWUNLOCK_READ, RWLOCK_WRITE,
      RWUNLOCK_WRITE, CONDVAR_WAIT, CONDVAR_NOTIFY_ONE, CONDVAR_NOTIFY_ALL, hb]
  · subst h
    simp [LOCK_MUTEX, UNLOCK_MUTEX, RWLOCK_READ, RWUNLOCK_READ, RWLOCK_WRITE,
      RWUNLOCK_WRITE, CONDVAR_WAIT, CONDVAR_NOTIFY_ONE, CONDVAR_NOTIFY_ALL]

/-- Witness for `macros_exit_on_error` at the concrete result −3 (an error
code) and at 0. -/
theorem macros_exit_on_error_witness :
    ((-3 : Int) ≠ 0 ∧ LOCK_MUTEX (-3) = .exited 1) ∧
    CONDVAR_WAIT_TIMEOUT (-3) = .value (-3) :=
  ⟨⟨by decide, ((macros_exit_on_error (-3)).1 (by decide)).1⟩,
   (macros_exit_on_error (-3)).2.2⟩

/-- The wait edge just inserted for `t` is found first. -/
lemma lookupWait_insertWait_self (s : DState) (t : Tid) (l : Lid) (m : Mode) :
    lookupWait (insertWait s t l m) t = some (l, m) := by
  simp [lookupWait, insertWait, List.find?_cons_of_pos]

/-- The holder recorded by `mutexOwnerOf` carries a hold edge of `l`. -/
lemma mem_mutexHolders_of_ownerOf (s : DState) (t : Tid) (l : Lid)
    (h : mutexOwnerOf s l = some t) : t ∈ mutexHolders s l := by
  unfold mutexOwnerOf at h
  obtain ⟨e, he, het⟩ := Option.map_eq_some'.mp h
  have hel := List.find?_some he
  have hmem : e ∈ s.mutexOwner := List.mem_of_find?_eq_some he
  refine List.mem_map.mpr ⟨e, List.mem_filter.mpr ⟨hmem, hel⟩, het⟩

/-- Closing step of the DFS: when the start thread is itself a conflicting
holder of the lock the current thread waits for, the search returns the
accumulated cycle at once. -/
lemma dfsAux_close (s : DState) (start t : Tid) (l : Lid) (m : Mode)
    (fuel : Nat) (accT : List Tid) (accE : List (Tid × Lid))
    (hw : lookupWait s t = some (l, m))
    (hmem : start ∈ conflictingHolders s t l m) :
    dfsAux s start (fuel + 1) t accT accE =
      some ⟨accT ++ [t], accE ++ [(t, l)]⟩ := by
  rw [dfsAux, hw]
  simp [hmem]

/-- C6: for every state, a `lock(m)` request by a thread `t` that already
holds the tracked mutex `m` is a self-deadlock: `on_about_to_wait` fires the
callback with the trivial self-cycle `thread_cycle = [t]` (wait edge
`(t, m)`) and sets the deadlock flag. -/
theorem double_lock_self_deadlock (s : DState) (t : Tid) (l : Lid)
    (h : mutexOwnerOf s l = some t) :
    (on_about_to_wait s t l Mode.exclusive).deadlock_seen = true ∧
    (on_about_to_wait s t l Mode.exclusive).reports =
      s.reports ++ [⟨[t], [(t, l)]⟩] := by
  have hw : lookupWait (insertWait s t l Mode.exclusive) t =
      some (l, Mode.exclusive) := lookupWait_insertWait_self s t l Mode.exclusive
  have hOwner : mutexOwnerOf (insertWait s t l Mode.exclusive) l = some t := h
  have hmemH : t ∈ mutexHolders (insertWait s t l Mode.exclusive) l :=
    mem_mutexHolders_of_ownerOf _ t l hOwner
  have hmem : t ∈ conflictingHolders (insertWait s t l Mode.exclusive) t l
      Mode.exclusive := by
    show t ∈ mutexHolders (insertWait s t l Mode.exclusive) l ++ _ ++ _
    exact List.mem_append_left _ (List.mem_append_left _ hmemH)
  have hfc : findCycle (insertWait s t l Mode.exclusive) t =
      some ⟨[t], [(t, l)]⟩ := by
    unfold findCycle fuelOf
    simpa using dfsAux_close (insertWait s t l Mode.exclusive) t t l
      Mode.exclusive (insertWait s t l Mode.exclusive).waits.length [] [] hw hmem
  rw [on_about_to_wait, hfc]
  exact ⟨rfl, rfl⟩

/-- Witness for `double_lock_self_deadlock`: thread 7 holds mutex 50 and
locks it again. -/
theorem double_lock_self_deadlock_witness :
    mutexOwnerOf (on_acquired_mutex DState.init 7 50) 50 = some 7 ∧
    ((on_about_to_wait (on_acquired_mutex DState.init 7 50) 7 50
        Mode.exclusive).deadlock_seen = true ∧
     (on_about_to_wait (on_acquired_mutex DState.init 7 50) 7 50
        Mode.exclusive).reports =
       (on_acquired_mutex DState.init 7 50).reports ++ [⟨[7], [(7, 50)]⟩]) :=
  ⟨by decide, double_lock_self_deadlock (on_acquired_mutex DState.init 7 50)
    7 50 (by decide)⟩

/-- C8: an unlock of tracked mutex `l` by a thread that is not the current
holder returns a negative error code and leaves the state (graph and
primitive) unchanged; an unlock by the current holder succeeds with 0. -/
theorem unlock_requires_holder (s : DState) (t : Tid) (l : Lid) :
    (mutexOwnerOf s l ≠ some t →
      (deloxide_unlock_mutex s t (some l)).1 < 0 ∧
      (deloxide_unlock_mutex s t (some l)).2 = s) ∧
    (mutexOwnerOf s l = some t →
      (deloxide_unlock_mutex s t (some l)).1 = 0) ∧
    (deloxide_unlock_mutex s t (none : Option Lid)).1 < 0 ∧
    (deloxide_unlock_mutex s t (none : Option Lid)).2 = s := by
  refine ⟨fun h => ?_, fun h => ?_, show (-1 : Int) < 0 by decide, rfl⟩
  · simp [deloxide_unlock_mutex, unlock_mutex, h]
  · simp [deloxide_unlock_mutex, unlock_mutex, h]

/-- Witness for `unlock_requires_holder`: thread 9 holds mutex 50; thread 8's
unlock is rejected without mutation while thread 9's unlock succeeds. -/
theorem unlock_requires_holder_witness :
    (mutexOwnerOf (on_acquired_mutex DState.init 9 50) 50 ≠ some 8 ∧
     (deloxide_unlock_mutex (on_acquired_mutex DState.init 9 50) 8
        (some 50)).1 < 0 ∧
     (deloxide_unlock_mutex (on_acquired_mutex DState.init 9 50) 8
        (some 50)).2 = on_acquired_mutex DState.init 9 50) ∧
    (mutexOwnerOf (on_acquired_mutex DState.init 9 50) 50 = some 9 ∧
     (deloxide_unlock_mutex (on_acquired_mutex DState.init 9 50) 9
        (some 50)).1 = 0) :=
  ⟨⟨by decide,
    (unlock_requires_holder (on_acquired_mutex DState.init 9 50) 8 50).1
      (by decide)⟩,
   ⟨by decide,
    (unlock_requires_holder (on_acquired_mutex DState.init 9 50) 9 50).2.1
      (by decide)⟩⟩

/-- C7: return codes of the condvar wait entries — `deloxide_condvar_wait`
returns 0 on success, −1 when the condvar handle is null, −2 when the mutex
handle is null, −3 when the caller does not hold the mutex, −4 on wait
failure; `deloxide_condvar_wait_timeout` returns the same negative codes,
0 when signaled and 1 on timeout. -/
theorem condvar_wait_return_codes (s : DState) (t : Tid) (c mx : Lid)
    (w tmo : Bool) :
    (deloxide_condvar_wait s t none (some mx) w).1 = -1 ∧
    (deloxide_condvar_wait s t none none w).1 = -1 ∧
    (deloxide_condvar_wait s t (some c) none w).1 = -2 ∧
    (mutexOwnerOf s mx ≠ some t →
      (deloxide_condvar_wait s t (some c) (some mx) w).1 = -3) ∧
    (mutexOwnerOf s mx = some t →
      (deloxide_condvar_wait s t (some c) (some mx) false).1 = -4) ∧
    (mutexOwnerOf s mx = some t →
      (deloxide_condvar_wait s t (some c) (some mx) true).1 = 0) ∧
    (deloxide_condvar_wait_timeout s t none (some mx) w tmo).1 = -1 ∧
    (deloxide_condvar_wait_timeout s t (some c) none w tmo).1 = -2 ∧
    (mutexOwnerOf s mx ≠ some t →
      (deloxide_condvar_wait_timeout s t (some c) (some mx) w tmo).1 = -3) ∧
    (mutexOwnerOf s mx = some t →
      (deloxide_condvar_wait_timeout s t (some c) (some mx) false tmo).1 = -4) ∧
    (mutexOwnerOf s mx = some t →
      (deloxide_condvar_wait_timeout s t (some c) (some mx) true true).1 = 1) ∧
    (mutexOwnerOf s mx = some t →
      (deloxide_condvar_wait_timeout s t (some c) (some mx) true false).1 = 0) := by
  refine ⟨rfl, rfl, rfl, fun h => ?_, fun h => ?_, fun h => ?_, rfl, rfl,
    fun h => ?_, fun h => ?_, fun h => ?_, fun h => ?_⟩ <;>
    simp [deloxide_condvar_wait, deloxide_condvar_wait_timeout, h]

/-- Witness for `condvar_wait_return_codes`: thread 1 holds mutex 10 and
waits successfully on condvar 30; thread 2 does not hold the mutex and gets
−3; the timed variant reports a timeout as 1. -/
theorem condvar_wait_return_codes_witness :
    (mutexOwnerOf (on_acquired_mutex DState.init 1 10) 10 = some 1 ∧
     (deloxide_condvar_wait (on_acquired_mutex DState.init 1 10) 1 (some 30)
        (some 10) true).1 = 0 ∧
     (deloxide_condvar_wait_timeout (on_acquired_mutex DState.init 1 10) 1
        (some 30) (some 10) true true).1 = 1) ∧
    (mutexOwnerOf (on_acquired_mutex DState.init 1 10) 10 ≠ some 2 ∧
     (deloxide_condvar_wait (on_acquired_mutex DState.init 1 10) 2 (some 30)
        (some 10) true).1 = -3) :=
  ⟨⟨by decide,
    (condvar_wait_return_codes (on_acquired_mutex DState.init 1 10) 1 30 10
      true true).2.2.2.2.2.1 (by decide),
    (condvar_wait_return_codes (on_acquired_mutex DState.init 1 10) 1 30 10
      true true).2.2.2.2.2.2.2.2.2.2.1 (by decide)⟩,
   ⟨by decide,
    (condvar_wait_return_codes (on_acquired_mutex DState.init 1 10) 2 30 10
      true true).2.2.2.1 (by decide)⟩⟩

/-- Events that only take or release read locks. -/
def readOnlyEv : Event → Bool
  | .reqRead _ _ => true
  | .acqRead _ _ => true
  | .relRead _ _ => true
  | _ => false

/-- In a state with no mutex holders and no writers, a shared-mode wait edge
has no contributing holders at all. -/
lemma conflictingHolders_shared_nil (s : DState) (t : Tid) (l : Lid)
    (h1 : s.mutexOwner = []) (h2 : s.rwWriter = []) :
    conflictingHolders s t l Mode.shared = [] := by
  simp [conflictingHolders, mutexHolders, writersOf, h1, h2]

/-- In a state with no mutex holders and no writers, cycle detection for a
thread whose wait edge is shared finds nothing. -/
lemma findCycle_shared_none (s : DState) (t : Tid) (l : Lid)
    (h1 : s.mutexOwner = []) (h2 : s.rwWriter = [])
    (hw : lookupWait s t = some (l, Mode.shared)) :
    findCycle s t = none := by
  unfold findCycle fuelOf
  rw [dfsAux, hw]
  simp [conflictingHolders_shared_nil s t l h1 h2]

/-- A read-only event preserves emptiness of the mutex and writer hold-edge
sets, and neither fires the callback nor touches the deadlock flag. -/
lemma step_readOnly_inv (s : DState) (e : Event) (he : readOnlyEv e = true)
    (h1 : s.mutexOwner = []) (h2 : s.rwWriter = []) :
    (step s e).mutexOwner = [] ∧ (step s e).rwWriter = [] ∧
    (step s e).reports = s.reports ∧
    (step s e).deadlock_seen = s.deadlock_seen := by
  cases e with
  | reqRead t l =>
    have hw : lookupWait (insertWait s t l Mode.shared) t =
        some (l, Mode.shared) := lookupWait_insertWait_self s t l Mode.shared
    have hfc : findCycle (insertWait s t l Mode.shared) t = none :=
      findCycle_shared_none (insertWait s t l Mode.shared) t l h1 h2 hw
    simp only [step]
    rw [on_about_to_wait, hfc]
    exact ⟨h1, h2, rfl, rfl⟩
  | acqRead t l => exact ⟨h1, h2, rfl, rfl⟩
  | relRead t l => exact ⟨h1, h2, rfl, rfl⟩
  | reqMutex t l => simp [readOnlyEv] at he
  | acqMutex t l => simp [readOnlyEv] at he
  | relMutex t l => simp [readOnlyEv] at he
  | reqWrite t l => simp [readOnlyEv] at he
  | acqWrite t l => simp [readOnlyEv] at he
  | relWrite t l => simp [readOnlyEv] at he
  | cvWait t cv mx => simp [readOnlyEv] at he
  | cvWake t cv => simp [readOnlyEv] at he
  | resetFlag => simp [readOnlyEv] at he

/-- Folding any sequence of read-only events preserves the invariant. -/
lemma foldl_readOnly_inv :
    ∀ (evs : List Event) (s : DState), (∀ e ∈ evs, readOnlyEv e = true) →
      s.mutexOwner = [] → s.rwWriter = [] →
      (evs.foldl step s).mutexOwner = [] ∧
      (evs.foldl step s).rwWriter = [] ∧
      (evs.foldl step s).reports = s.reports ∧
      (evs.foldl step s).deadlock_seen = s.deadlock_seen := by
  intro evs
  induction evs with
  | nil => intro s _ h1 h2; exact ⟨h1, h2, rfl, rfl⟩
  | cons e evs ih =>
    intro s hall h1 h2
    have he : readOnlyEv e = true := hall e (List.mem_cons_self e evs)
    have hstep := step_readOnly_inv s e he h1 h2
    have htail := ih (step s e) (fun x hx => hall x (List.mem_cons_of_mem e hx))
      hstep.1 hstep.2.1
    refine ⟨htail.1, htail.2.1, ?_, ?_⟩
    · rw [List.foldl_cons] at *
      exact htail.2.2.1.trans hstep.2.2.1
    · exact htail.2.2.2.trans hstep.2.2.2

/-- C2: for every execution consisting only of read-lock and read-unlock
operations by any number of concurrent reader threads, the deadlock callback
never fires and the deadlock flag stays clear — a reader-waiter's wait edge
has no contributing hold edges from other readers, so no cycle is ever
reported. -/
theorem read_only_never_fires (evs : List Event)
    (h : ∀ e ∈ evs, readOnlyEv e = true) :
    (run evs).reports = [] ∧ (run evs).deadlock_seen = false := by
  have := foldl_readOnly_inv evs DState.init h rfl rfl
  exact ⟨this.2.2.1, this.2.2.2⟩

/-- Witness for `read_only_never_fires`: four concurrent readers on the
single RwLock 40, interleaved. -/
theorem read_only_never_fires_witness :
    (∀ e ∈ [Event.reqRead 1 40, Event.acqRead 1 40, Event.reqRead 2 40,
        Event.acqRead 2 40, Event.reqRead 3 40, Event.acqRead 3 40,
        Event.reqRead 4 40, Event.acqRead 4 40, Event.relRead 2 40,
        Event.relRead 1 40, Event.relRead 4 40, Event.relRead 3 40],
      readOnlyEv e = true) ∧
    ((run [Event.reqRead 1 40, Event.acqRead 1 40, Event.reqRead 2 40,
        Event.acqRead 2 40, Event.reqRead 3 40, Event.acqRead 3 40,
        Event.reqRead 4 40, Event.acqRead 4 40, Event.relRead 2 40,
        Event.relRead 1 40, Event.relRead 4 40, Event.relRead 3 40]).reports
        = [] ∧
     (run [Event.reqRead 1 40, Event.acqRead 1 40, Event.reqRead 2 40,
        Event.acqRead 2 40, Event.reqRead 3 40, Event.acqRead 3 40,
        Event.reqRead 4 40, Event.acqRead 4 40, Event.relRead 2 40,
        Event.relRead 1 40, Event.relRead 4 40, Event.relRead 3 40]).deadlock_seen
        = false) :=
  ⟨by decide, read_only_never_fires _ (by decide)⟩

/-- An edge pair of the wait-for graph usable by the cycle search in state
`s`: thread `a`'s wait edge points at lock `l` (present in `s`), and `b` is a
holder of `l` whose hold edge conflicts with `a`'s requested mode (also
present in `s`). Both edges are read from the same state, so a chain of
`EdgeStep`s certifies simultaneous presence at the moment of the DFS. -/
def EdgeStep (s : DState) (a : Tid) (l : Lid) (b : Tid) : Prop :=
  ∃ m, lookupWait s a = some (l, m) ∧ b ∈ conflictingHolders s a l m

/-- An open chain: the listed threads with their listed wait edges step from
one to the next through the graph of `s`, and the last one steps into `t`. -/
inductive OpenChain (s : DState) : List Tid → List (Tid × Lid) → Tid → Prop
  | nil (t : Tid) : OpenChain s [] [] t
  | single (a : Tid) (l : Lid) (t : Tid) :
      EdgeStep s a l t → OpenChain s [a] [(a, l)] t
  | cons (a : Tid) (l : Lid) (a' : Tid) (ts : List Tid)
      (es : List (Tid × Lid)) (t : Tid) :
      EdgeStep s a l a' → OpenChain s (a' :: ts) es t →
      OpenChain s (a :: a' :: ts) ((a, l) :: es) t

/-- A closed chain: consecutive listed threads are connected through their
listed wait edges, and the last thread's edge closes back to `first`. -/
inductive IsChain (s : DState) (first : Tid) : List Tid → List (Tid × Lid) → Prop
  | last (t : Tid) (l : Lid) :
      EdgeStep s t l first → IsChain s first [t] [(t, l)]
  | cons (t : Tid) (l : Lid) (t' : Tid) (ts : List Tid)
      (es : List (Tid × Lid)) :
      EdgeStep s t l t' → IsChain s first (t' :: ts) es →
      IsChain s first (t :: t' :: ts) ((t, l) :: es)

/-- A report is valid for state `s` when its thread cycle is nonempty and,
together with its wait-edge list, forms a closed chain in `s`. -/
def ValidReport (s : DState) (r : Report) : Prop :=
  ∃ t0, r.thread_cycle.head? = some t0 ∧
    IsChain s t0 r.thread_cycle r.thread_waiting_for_locks

/-- Extending an open chain by one step keeps it an open chain. -/
lemma OpenChain.snoc (s : DState) :
    ∀ (accT : List Tid) (accE : List (Tid × Lid)) (t : Tid) (l : Lid) (b : Tid),
      OpenChain s accT accE t → EdgeStep s t l b →
      OpenChain s (accT ++ [t]) (accE ++ [(t, l)]) b := by
  intro accT accE t l b hchain hstep
  induction hchain with
  | nil t => exact OpenChain.single t l b hstep
  | single a l0 t h0 =>
    exact OpenChain.cons a l0 t [] [(t, l)] b h0 (OpenChain.single t l b hstep)
  | cons a l0 a' ts es t h0 _ ih =>
    exact OpenChain.cons a l0 a' (ts ++ [t]) (es ++ [(t, l)]) b h0 (ih hstep)

/-- Closing an open chain with a step back to `first` yields a closed
chain. -/
lemma OpenChain.close (s : DState) (first : Tid) :
    ∀ (accT : List Tid) (accE : List (Tid × Lid)) (t : Tid) (l : Lid),
      OpenChain s accT accE t → EdgeStep s t l first →
      IsChain s first (accT ++ [t]) (accE ++ [(t, l)]) := by
  intro accT accE t l hchain hstep
  induction hchain with
  | nil t => exact IsChain.last t l hstep
  | single a l0 t h0 =>
    exact IsChain.cons a l0 t [] [(t, l)] h0 (IsChain.last t l hstep)
  | cons a l0 a' ts es t h0 _ ih =>
    exact IsChain.cons a l0 a' (ts ++ [t]) (es ++ [(t, l)]) h0 (ih hstep)

/-- The head of a nonempty list is unchanged by appending on the right. -/
lemma head?_append_right {α : Type} (xs ys : List α) (a : α)
    (h : xs.head? = some a) : (xs ++ ys).head? = some a := by
  cases xs with
  | nil => simp at h
  | cons x xs => simpa using h

/-- Soundness of the DFS: any report it returns is a closed chain through the
graph of `s`, starting at the `start` thread, built from the accumulated open
chain. -/
lemma dfsAux_sound (s : DState) (start : Tid) :
    ∀ (fuel : Nat) (t : Tid) (accT : List Tid) (accE : List (Tid × Lid))
      (r : Report),
      dfsAux s start fuel t accT accE = some r →
      OpenChain s accT accE t →
      (accT ++ [t]).head? = some start →
      r.thread_cycle.head? = some start ∧
      IsChain s start r.thread_cycle r.thread_waiting_for_locks := by
  intro fuel
  induction fuel with
  | zero =>
    intro t accT accE r hrun
    simp [dfsAux] at hrun
  | succ n ih =>
    intro t accT accE r hrun hchain hhead
    rw [dfsAux] at hrun
    cases hw : lookupWait s t with
    | none => rw [hw] at hrun; simp at hrun
    | some lm =>
      obtain ⟨l, m⟩ := lm
      rw [hw] at hrun
      simp only at hrun
      by_cases hmem : start ∈ conflictingHolders s t l m
      · rw [if_pos hmem] at hrun
        have hr : r = ⟨accT ++ [t], accE ++ [(t, l)]⟩ :=
          (Option.some.injEq _ _ ▸ hrun).symm
        subst hr
        exact ⟨hhead, OpenChain.close s start accT accE t l hchain
          ⟨m, hw, hmem⟩⟩
      · rw [if_neg hmem] at hrun
        obtain ⟨h, hh_mem, hh_eq⟩ := List.exists_of_findSome?_eq_some hrun
        by_cases hv : h ∈ accT ++ [t]
        · rw [if_pos hv] at hh_eq; cases hh_eq
        · rw [if_neg hv] at hh_eq
          exact ih h (accT ++ [t]) (accE ++ [(t, l)]) r hh_eq
            (OpenChain.snoc s accT accE t l h hchain ⟨m, hw, hh_mem⟩)
            (head?_append_right (accT ++ [t]) [h] start hhead)

/-- C3: whenever the deadlock callback fires — `on_about_to_wait` appended a
report — the reported `thread_cycle` lists the thread IDs in traversal order
such that every consecutive pair, and the closing pair from the last thread
back to the first, is connected by an edge listed in
`thread_waiting_for_locks`, and every edge of that cycle (the wait edge and
the conflicting hold edge behind it) is present in the single wait-for-graph
state inspected by the DFS. -/
theorem callback_reports_valid_cycle (s : DState) (t : Tid) (l : Lid)
    (m : Mode) (r : Report)
    (h : (on_about_to_wait s t l m).reports = s.reports ++ [r]) :
    ValidReport (insertWait s t l m) r := by
  rw [on_about_to_wait] at h
  cases hf : findCycle (insertWait s t l m) t with
  | none =>
    rw [hf] at h
    exfalso
    have h' : s.reports = s.reports ++ [r] := h
    simpa using congrArg List.length h'
  | some r' =>
    rw [hf] at h
    simp only at h
    have h' : s.reports ++ [r'] = s.reports ++ [r] := h
    have hr : r' = r := by
      have := List.append_cancel_left h'
      simpa using this
    subst hr
    rw [findCycle] at hf
    have hsound := dfsAux_sound (insertWait s t l m) t
      (fuelOf (insertWait s t l m)) t [] [] r' hf (OpenChain.nil t) (by simp)
    exact ⟨t, hsound.1, hsound.2⟩

/-- Witness for `callback_reports_valid_cycle`: thread 5 holds mutex 9 and
re-locks it, producing the self-cycle report `⟨[5], [(5, 9)]⟩`. -/
theorem callback_reports_valid_cycle_witness :
    ((on_about_to_wait (on_acquired_mutex DState.init 5 9) 5 9
        Mode.exclusive).reports =
      (on_acquired_mutex DState.init 5 9).reports ++ [⟨[5], [(5, 9)]⟩]) ∧
    ValidReport (insertWait (on_acquired_mutex DState.init 5 9) 5 9
        Mode.exclusive) ⟨[5], [(5, 9)]⟩ :=
  ⟨by decide,
   callback_reports_valid_cycle (on_acquired_mutex DState.init 5 9) 5 9
     Mode.exclusive ⟨[5], [(5, 9)]⟩ (by decide)⟩

end Deloxide
